import Mathlib

/-
Verification development for the indexReturn backtesting repository.

The strategy decision functions are shallow embeddings of the `next` and
`notify_order` methods of the four strategy classes under src, translated
line by line.  Prices and cash are rationals.  The simulation engine itself
lives in the backtrader library, outside src; it is modelled from the spec
where needed (next-bar fills at the open, margin rejection, the order
creation layer) and each such definition is marked in its doc comment.
-/

namespace IndexReturn

/-- Python int() applied to a rational: truncation toward zero. -/
def pyInt (x : ℚ) : ℤ :=
  if 0 ≤ x then ⌊x⌋ else ⌈x⌉

/-- Python truthiness of an optional float (None and 0.0 are falsy). -/
def truthy : Option ℚ → Bool
  | none => false
  | some x => x ≠ 0

/-- Order intent emitted by a strategy decision, as written in src:
an explicitly sized buy, an unsized buy or sell left to the configured
sizer, a close of the whole position, or no action. -/
inductive Action where
  | hold
  | buy (size : ℤ)
  | buyDefault
  | sellDefault
  | close
  deriving DecidableEq, Repr

/-- A broker order: a sized buy or sell, long-only share counts. -/
inductive Order where
  | buy (size : ℕ)
  | sell (size : ℕ)
  deriving DecidableEq, Repr

/-- One daily bar as the engine consumes it: the open used for fills, the
close used for decisions, and a broker acceptance flag.  The flag is
modelled from the spec, which allows broker-side rejection of any order
(order rejection transitions to a terminal non-fill state and the run
continues). -/
structure Bar where
  openPrice : ℚ
  closePrice : ℚ
  accept : Bool
  deriving DecidableEq, Repr

/-- Ledger state: cash, long position in shares, outstanding order. -/
structure Broker where
  cash : ℚ
  position : ℕ
  pending : Option Order
  deriving DecidableEq, Repr

/-- Modelled from the spec: the order creation layer of the backtrader
library (not under src).  A computed buy size of zero or less creates no
order (a size-zero buy is a silent no-op, not an error); a close when flat
creates no order; a close otherwise sells the entire position.  Unsized
buys and sells are given the default fixed stake of one share. -/
def submitOrder (position : ℕ) : Action → Option Order
  | .hold => none
  | .buy s => if 0 < s then some (.buy s.toNat) else none
  | .buyDefault => some (.buy 1)
  | .sellDefault => some (.sell 1)
  | .close => if position = 0 then none else some (.sell position)

/-- Modelled from the spec: broker execution of the outstanding order at
the open of the current bar.  A buy fills only if the broker accepts it and
its cost, commission included, does not exceed cash; otherwise it is
rejected with no ledger effect.  A sell fills if accepted.  Cash decreases
by fill price times size times (1 + commission) on a buy and increases by
fill price times size times (1 - commission) on a sell. -/
def fillStep (comm : ℚ) (bar : Bar) (b : Broker) : Broker :=
  match b.pending with
  | none => b
  | some (Order.buy n) =>
    let cost := (n : ℚ) * bar.openPrice * (1 + comm)
    if bar.accept ∧ cost ≤ b.cash then
      { cash := b.cash - cost, position := b.position + n, pending := none }
    else
      { b with pending := none }
  | some (Order.sell n) =>
    if bar.accept then
      { cash := b.cash + (n : ℚ) * bar.openPrice * (1 - comm),
        position := b.position - n, pending := none }
    else
      { b with pending := none }

/-- Engine state: strategy-private state, broker state, and the log of all
orders created so far during the run. -/
structure EngineState (σ : Type) where
  strat : σ
  broker : Broker
  log : List Order
  deriving DecidableEq, Repr

/-- Modelled from the spec: one bar of the event loop.  If an order is
outstanding, attempt its fill at this bar and transition its state;
otherwise invoke the strategy for a new decision and, if non-hold, create
an order for fill on a following bar. -/
def engineStep (comm : ℚ) (decide : σ → Broker → Bar → σ × Option Order)
    (st : EngineState σ) (bar : Bar) : EngineState σ :=
  match st.broker.pending with
  | some _ => { st with broker := fillStep comm bar st.broker }
  | none =>
    let res := decide st.strat st.broker bar
    { strat := res.1,
      broker := { st.broker with pending := res.2 },
      log := match res.2 with
             | some o => st.log ++ [o]
             | none => st.log }

/-- Modelled from the spec: the full bar-by-bar run of the engine. -/
def runEngine (comm : ℚ) (decide : σ → Broker → Bar → σ × Option Order)
    (st : EngineState σ) (bars : List Bar) : EngineState σ :=
  bars.foldl (engineStep comm decide) st

namespace BuyAndHold

/-- BuyAndHoldStrategy.next (src/buy_and_hold_strategy.py lines 51-70):
return early once bought; otherwise, when flat and not yet bought, buy
int(cash / close) shares and set the bought flag.  Returns the action and
the new bought flag. -/
def next (bought : Bool) (position : ℕ) (cash close : ℚ) : Action × Bool :=
  if bought then (.hold, bought)
  else if position = 0 ∧ bought = false then
    (.buy (pyInt (cash / close)), true)
  else (.hold, bought)

/-- BuyAndHoldStrategy wired into the engine: the decision uses the
current close and all available cash. -/
def decide (bought : Bool) (b : Broker) (bar : Bar) : Bool × Option Order :=
  let res := next bought b.position b.cash bar.closePrice
  (res.2, submitOrder b.position res.1)

end BuyAndHold

namespace SmaCross

/-- SmaCrossStrategy.next (src/strategies/sma_crossover_strategy.py lines
70-98): hold while an order is pending; when flat and the crossover value
is positive, buy int(cash / close) shares; when in position and the
crossover value is negative, close the entire position. -/
def next (pending : Bool) (position : ℕ) (crossover cash close : ℚ) : Action :=
  if pending then .hold
  else if position = 0 then
    if 0 < crossover then .buy (pyInt (cash / close)) else .hold
  else
    if crossover < 0 then .close else .hold

end SmaCross

namespace SmaCrossTop

/-- SmaCrossStrategy.next of the top-level duplicate
(src/sma_crossover_strategy.py lines 65-82): hold while an order is
pending; when flat and the crossover value is positive, create an unsized
buy (size left to the configured sizer); when in position and the
crossover value is negative, create an unsized sell (not a close). -/
def next (pending : Bool) (position : ℕ) (crossover : ℚ) : Action :=
  if pending then .hold
  else if position = 0 then
    if 0 < crossover then .buyDefault else .hold
  else
    if crossover < 0 then .sellDefault else .hold

end SmaCrossTop

/-- Parameters of ReboundStrategy. -/
structure ReboundParams where
  drop_threshold : ℚ
  rise_threshold : ℚ
  lookback_period : ℕ
  deriving DecidableEq, Repr

namespace Rebound

/-- ReboundStrategy.next (src/strategies/rebound_strategy.py lines
66-113).  Inputs are exactly what the method reads: the pending flag, the
position size, len(self.data) at the current bar, the current close, the
close lookback_period bars earlier, the recorded purchase price (an
optional float, truthiness-guarded), and available cash. -/
def next (p : ReboundParams) (pending : Bool) (position : ℕ) (dataLen : ℕ)
    (close pastClose : ℚ) (purchase : Option ℚ) (cash : ℚ) : Action :=
  if pending then .hold
  else if position = 0 then
    if p.lookback_period < dataLen then
      if p.drop_threshold ≤ (pastClose - close) / pastClose then
        .buy (pyInt (cash / close))
      else .hold
    else .hold
  else
    match purchase with
    | none => .hold
    | some pp =>
      if pp ≠ 0 then
        if p.rise_threshold ≤ (close - pp) / pp then .close else .hold
      else .hold

/-- ReboundStrategy.next evaluated against a full close series at bar
index i (0-based): len(self.data) is i + 1 and close[-lookback] is the
series element i - lookback. -/
def nextAt (p : ReboundParams) (closes : List ℚ) (i : ℕ) (pending : Bool)
    (position : ℕ) (purchase : Option ℚ) (cash : ℚ) : Action :=
  next p pending position (i + 1) (closes.getD i 0)
    (closes.getD (i - p.lookback_period) 0) purchase cash

/-- ReboundStrategy.notify_order on a completed buy (lines 50-54): record
the fill price as the purchase price. -/
def notifyBuyCompleted (fillPrice : ℚ) : Option ℚ :=
  some fillPrice

/-- ReboundStrategy.notify_order on a completed sell (lines 55-58): reset
the purchase price. -/
def notifySellCompleted : Option ℚ :=
  none

end Rebound

/-- Parameters of MarketMomentumStrategy. -/
structure MomentumParams where
  rsi_oversold : ℚ
  rsi_overbought : ℚ
  trail_percent : ℚ
  risk_per_trade : ℚ
  deriving DecidableEq, Repr

/-- The indicator and price values MarketMomentumStrategy.next reads on a
bar: the current and previous close, fast and medium moving averages, RSI,
MACD line and MACD signal line.  The fields with suffix 1 are the previous
bar values (index -1 in backtrader). -/
structure MomentumBar where
  close : ℚ
  close1 : ℚ
  fastMA : ℚ
  fastMA1 : ℚ
  mediumMA : ℚ
  mediumMA1 : ℚ
  rsi : ℚ
  rsi1 : ℚ
  macd : ℚ
  macd1 : ℚ
  sig : ℚ
  sig1 : ℚ
  deriving DecidableEq, Repr

namespace MarketMomentum

/-- Trailing stop ratchet (market_momentum_strategy.py lines 105-108): if
the current price exceeds the anchor times (1 + trail_percent), the anchor
moves up to the current price. -/
def ratchet (trail anchor price : ℚ) : ℚ :=
  if anchor * (1 + trail) < price then price else anchor

/-- Trailing stop trigger (lines 111-112): the stop fires when the current
price falls below the (possibly just ratcheted) anchor times
(1 - trail_percent). -/
def stopHit (trail anchor price : ℚ) : Bool :=
  price < anchor * (1 - trail)

/-- Exit signal 1 (line 162): RSI above the overbought threshold. -/
def rsiExit (p : MomentumParams) (d : MomentumBar) : Bool :=
  p.rsi_overbought < d.rsi

/-- Exit signal 2 (line 165): fast MA crossing below medium MA. -/
def downtrend (d : MomentumBar) : Bool :=
  d.fastMA < d.mediumMA ∧ d.mediumMA1 ≤ d.fastMA1

/-- Exit signal 3 (line 168): MACD line crossing below its signal line. -/
def macdExit (d : MomentumBar) : Bool :=
  d.macd < d.sig ∧ d.sig1 ≤ d.macd1

/-- Entry signal 1 (line 124): fast MA crossing above medium MA. -/
def uptrend (d : MomentumBar) : Bool :=
  d.mediumMA < d.fastMA ∧ d.fastMA1 ≤ d.mediumMA1

/-- Entry signal 2 (line 127): RSI crossing above the oversold level. -/
def rsiEntry (p : MomentumParams) (d : MomentumBar) : Bool :=
  p.rsi_oversold < d.rsi ∧ d.rsi1 ≤ p.rsi_oversold

/-- Entry signal 3 (line 130): MACD line crossing above its signal line. -/
def macdEntry (d : MomentumBar) : Bool :=
  d.sig < d.macd ∧ d.macd1 ≤ d.sig1

/-- Entry signal 4 (lines 133-135): price pullback within an uptrend. -/
def pullback (d : MomentumBar) : Bool :=
  d.mediumMA < d.fastMA ∧ d.close < d.fastMA ∧ d.close1 < d.close

/-- MarketMomentumStrategy.next (lines 95-187).  Returns the action and
the updated trailing stop anchor.  Structure follows the source exactly:
pending guard; trailing stop block (ratchet, then stop trigger closing the
whole position); then the entry branch, taken when flat or when the
position is below three times int(cash / price * risk_per_trade), buying
int(cash * risk_per_trade / price) shares if positive when any entry
signal fires; and only otherwise the exit branch, closing the whole
position when any exit signal fires. -/
def next (p : MomentumParams) (pending : Bool) (position : ℕ)
    (ts : Option ℚ) (cash : ℚ) (d : MomentumBar) : Action × Option ℚ :=
  if pending then (.hold, ts)
  else
    let price := d.close
    let ts1 : Option ℚ :=
      if position ≠ 0 ∧ truthy ts then some (ratchet p.trail_percent (ts.getD 0) price)
      else ts
    if position ≠ 0 ∧ truthy ts ∧ stopHit p.trail_percent (ts1.getD 0) price then
      (.close, ts1)
    else if position = 0 ∨ (position : ℤ) < 3 * pyInt (cash / price * p.risk_per_trade) then
      if uptrend d ∨ rsiEntry p d ∨ macdEntry d ∨ pullback d then
        let size := pyInt (cash * p.risk_per_trade / price)
        if 0 < size then (.buy size, ts1) else (.hold, ts1)
      else (.hold, ts1)
    else if position ≠ 0 then
      if rsiExit p d ∨ downtrend d ∨ macdExit d then (.close, ts1)
      else (.hold, ts1)
    else (.hold, ts1)

/-- MarketMomentumStrategy.notify_order on a completed buy (lines 76-82):
if the trailing stop is not already set (None or zero), anchor it at the
executed fill price. -/
def notifyBuyCompleted (ts : Option ℚ) (fillPrice : ℚ) : Option ℚ :=
  if truthy ts then ts else some fillPrice

/-- MarketMomentumStrategy.notify_order on a completed sell (lines 83-87):
reset the trailing stop when the position has returned to flat. -/
def notifySellCompleted (position : ℕ) (ts : Option ℚ) : Option ℚ :=
  if position = 0 then none else ts

end MarketMomentum

namespace Metrics

/-- Running maximum continued from a seed (pandas cummax tail). -/
def cummaxFrom (m : ℚ) : List ℚ → List ℚ
  | [] => []
  | v :: rest => max m v :: cummaxFrom (max m v) rest

/-- pandas Series.cummax over the portfolio values. -/
def cummax : List ℚ → List ℚ
  | [] => []
  | v :: rest => v :: cummaxFrom v rest

/-- Maximum of a list of rationals, zero on the empty list (the empty case
does not arise for a nonempty series). -/
def listMax : List ℚ → ℚ
  | [] => 0
  | x :: xs => xs.foldl max x

/-- Per-bar drawdown series of plot_equity_curve (visualize_results.py
line 36): (cummax - value) / cummax * 100, elementwise. -/
def drawdownSeries (vs : List ℚ) : List ℚ :=
  List.zipWith (fun m v => (m - v) / m * 100) (cummax vs) vs

/-- Max drawdown as calculate_performance_metrics computes it
(visualize_results.py line 79): the expression takes max() of the dollar
drawdown series first and only then divides by the cummax series, so the
result is an elementwise series, not a scalar. -/
def maxDrawdownCode (vs : List ℚ) : List ℚ :=
  let peaks := cummax vs
  let maxDiff := listMax (List.zipWith (fun m v => m - v) peaks vs)
  peaks.map (fun m => maxDiff / m * 100)

/-- Max drawdown as the spec defines it: the maximum over bars of
(running peak - value) / running peak, as a percentage. -/
def maxDrawdownSpecified (vs : List ℚ) : ℚ :=
  listMax (drawdownSeries vs)

/-- pandas pct_change: consecutive-bar returns (the leading NaN entry is
dropped, as pandas std skips it). -/
def dailyReturns (vs : List ℚ) : List ℚ :=
  List.zipWith (fun prev cur => cur / prev - 1) vs vs.tail

/-- Arithmetic mean of a list of rationals. -/
def mean (xs : List ℚ) : ℚ :=
  xs.sum / (xs.length : ℚ)

/-- Sample variance with one delta degree of freedom (the pandas std
default squared). -/
def sampleVar (xs : List ℚ) : ℚ :=
  (xs.map (fun x => (x - mean xs) ^ 2)).sum / ((xs.length : ℚ) - 1)

/-- pandas std of the daily returns: defined only when at least two
return observations exist, NaN (None) otherwise. -/
noncomputable def stdOpt (xs : List ℚ) : Option ℝ :=
  if 2 ≤ xs.length then some (Real.sqrt (sampleVar xs)) else none

/-- Total return percentage (visualize_results.py line 72). -/
def totalReturnPct (vs : List ℚ) : ℚ :=
  (vs.getLastD 0 / vs.headD 0 - 1) * 100

/-- Annualized return percentage (visualize_results.py lines 73-74):
(1 + total_return) ** (252 / len(df)) - 1, as a percentage. -/
noncomputable def annualReturnPct (vs : List ℚ) : ℝ :=
  ((1 + (totalReturnPct vs : ℝ) / 100) ^ ((252 : ℝ) / (vs.length : ℝ)) - 1) * 100

/-- Sharpe ratio as calculate_performance_metrics computes it
(visualize_results.py lines 76-77): annualized return divided by
annualized volatility (std of daily returns times sqrt 252, as a
percentage) when the volatility is a number greater than zero, and 0
otherwise (a NaN volatility compares as not greater than zero). -/
noncomputable def sharpeRatioCode (vs : List ℚ) : ℝ :=
  match stdOpt (dailyReturns vs) with
  | none => 0
  | some sd =>
    let vol := sd * Real.sqrt 252 * 100
    if 0 < vol then annualReturnPct vs / vol else 0

/-- Sharpe ratio as the claim words it: mean of daily returns over their
standard deviation, scaled by sqrt 252, and not-a-number (none) whenever
the volatility is zero or fewer than two return observations exist. -/
noncomputable def sharpeRatioClaimed (vs : List ℚ) : Option ℝ :=
  let rets := dailyReturns vs
  if 2 ≤ rets.length ∧ sampleVar rets ≠ 0 then
    some ((mean rets : ℝ) / Real.sqrt (sampleVar rets) * Real.sqrt 252)
  else none

/-- Sharpe ratio as the amended claim words it: the annualized return
(1 + total_return) ** (252 / n) - 1 divided by the annualized volatility
std * sqrt 252, reported as 0 whenever the volatility is zero or fewer
than two daily-return observations exist. -/
noncomputable def sharpeRatioAmended (vs : List ℚ) : ℝ :=
  let rets := dailyReturns vs
  if 2 ≤ rets.length ∧ 0 < sampleVar rets then
    annualReturnPct vs / (Real.sqrt (sampleVar rets) * Real.sqrt 252 * 100)
  else 0

end Metrics

/-- Unfolding lemma: a run over no bars is the initial state. -/
theorem runEngine_nil (comm : ℚ) (d : σ → Broker → Bar → σ × Option Order)
    (st : EngineState σ) : runEngine comm d st [] = st :=
  rfl

/-- Unfolding lemma: a run over bar :: rest steps once and continues. -/
theorem runEngine_cons (comm : ℚ) (d : σ → Broker → Bar → σ × Option Order)
    (st : EngineState σ) (bar : Bar) (rest : List Bar) :
    runEngine comm d st (bar :: rest) = runEngine comm d (engineStep comm d st bar) rest :=
  rfl

/-- Evaluation rule for pyInt on a nonnegative rational: it is the unique
integer n with n ≤ x < n + 1. -/
theorem pyInt_eq (x : ℚ) (n : ℤ) (h0 : 0 ≤ x) (h1 : (n : ℚ) ≤ x) (h2 : x < n + 1) :
    pyInt x = n := by
  rw [pyInt, if_pos h0]
  exact Int.floor_eq_iff.mpr ⟨h1, by exact_mod_cast h2⟩

/-- Filling the outstanding order never drives cash negative: a buy fills
only under the margin check, and a sell only adds a nonnegative amount
when the open is nonnegative and the commission rate is at most one. -/
theorem fillStep_cash_nonneg (comm : ℚ) (bar : Bar) (b : Broker)
    (hcash : 0 ≤ b.cash) (hopen : 0 ≤ bar.openPrice)
    (hc0 : 0 ≤ comm) (hc1 : comm ≤ 1) :
    0 ≤ (fillStep comm bar b).cash := by
  obtain ⟨cash, position, pending⟩ := b
  rcases pending with _ | o
  · exact hcash
  · rcases o with n | n
    · by_cases h : bar.accept ∧ (n : ℚ) * bar.openPrice * (1 + comm) ≤ cash
      · simp only [fillStep, if_pos h]
        linarith [h.2]
      · simp only [fillStep, if_neg h]
        exact hcash
    · by_cases h : bar.accept = true
      · simp only [fillStep, if_pos h]
        have hadd : (0 : ℚ) ≤ (n : ℚ) * bar.openPrice * (1 - comm) := by
          apply mul_nonneg (mul_nonneg (by positivity) hopen)
          linarith
        simpa using add_nonneg hcash hadd
      · simp only [fillStep, if_neg h]
        exact hcash

/-- One engine bar never drives cash negative, whatever the decision rule
does: the decision only creates an order; only fills move cash. -/
theorem engineStep_cash_nonneg (comm : ℚ) (d : σ → Broker → Bar → σ × Option Order)
    (st : EngineState σ) (bar : Bar)
    (hcash : 0 ≤ st.broker.cash) (hopen : 0 ≤ bar.openPrice)
    (hc0 : 0 ≤ comm) (hc1 : comm ≤ 1) :
    0 ≤ (engineStep comm d st bar).broker.cash := by
  unfold engineStep
  rcases hp : st.broker.pending with _ | o
  · simpa using hcash
  · simpa [hp] using fillStep_cash_nonneg comm bar st.broker hcash hopen hc0 hc1

/-- Induction core for the cash invariant, quantified over the starting
state so the bar induction goes through. -/
theorem runEngine_cash_nonneg_aux (comm : ℚ) (d : σ → Broker → Bar → σ × Option Order)
    (hc0 : 0 ≤ comm) (hc1 : comm ≤ 1) :
    ∀ bars : List Bar, (∀ bar ∈ bars, 0 ≤ bar.openPrice) →
      ∀ st : EngineState σ, 0 ≤ st.broker.cash →
        0 ≤ (runEngine comm d st bars).broker.cash := by
  intro bars
  induction bars with
  | nil => exact fun _ st h => h
  | cons bar rest ih =>
    intro hbars st hcash
    rw [runEngine_cons]
    exact ih (fun b hb => hbars b (List.mem_cons_of_mem bar hb)) _
      (engineStep_cash_nonneg comm d st bar hcash
        (hbars bar (List.mem_cons_self bar rest)) hc0 hc1)

/-- C1 (amended): ledger cash stays nonnegative over every run, for every
strategy decision rule, because the modelled broker margin-rejects any
buy whose cost, commission included, exceeds available cash. -/
theorem engine_cash_nonneg (comm : ℚ) (d : σ → Broker → Bar → σ × Option Order)
    (st : EngineState σ) (bars : List Bar)
    (hc0 : 0 ≤ comm) (hc1 : comm ≤ 1)
    (hbars : ∀ bar ∈ bars, 0 ≤ bar.openPrice)
    (hcash : 0 ≤ st.broker.cash) :
    0 ≤ (runEngine comm d st bars).broker.cash :=
  runEngine_cash_nonneg_aux comm d hc0 hc1 bars hbars st hcash

/-- Witness for engine_cash_nonneg: a concrete buy-and-hold run in which
the created buy is margin-rejected at the gapped-up next open. -/
theorem engine_cash_nonneg_witness :
    0 ≤ (runEngine (1/1000) BuyAndHold.decide ⟨false, ⟨1000, 0, none⟩, []⟩
      [⟨10, 10, true⟩, ⟨11, 11, true⟩]).broker.cash :=
  engine_cash_nonneg (1/1000) BuyAndHold.decide ⟨false, ⟨1000, 0, none⟩, []⟩
    [⟨10, 10, true⟩, ⟨11, 11, true⟩] (by norm_num) (by norm_num)
    (by norm_num [List.forall_mem_cons]) (by norm_num)

/-- C1 (counterexample): the buy size is floor-divided by the decision
bar close, not by the fill price.  Starting from 1000 cash with the
decision close at 10, buy-and-hold creates a buy of 100 shares; the order
fills at the next bar open of 11, and 100 differs from the
floor-divide-by-fill-price size 90; the cost at the fill price with
commission exceeds cash, so the order is margin-rejected and the run ends
flat with cash unchanged instead of completing the buy. -/
theorem buy_size_uses_decision_close_not_fill_price :
    (runEngine (1/1000) BuyAndHold.decide ⟨false, ⟨1000, 0, none⟩, []⟩
      [⟨10, 10, true⟩, ⟨11, 11, true⟩]).log = [Order.buy 100] ∧
    (100 : ℤ) ≠ pyInt ((1000 : ℚ) / 11) ∧
    (1000 : ℚ) < 100 * 11 * (1 + 1/1000) ∧
    (runEngine (1/1000) BuyAndHold.decide ⟨false, ⟨1000, 0, none⟩, []⟩
      [⟨10, 10, true⟩, ⟨11, 11, true⟩]).broker = ⟨1000, 0, none⟩ := by
  have h10 : pyInt ((1000 : ℚ) / 10) = 100 :=
    pyInt_eq _ _ (by norm_num) (by norm_num) (by norm_num)
  have h11 : pyInt ((1000 : ℚ) / 11) = 90 :=
    pyInt_eq _ _ (by norm_num) (by norm_num) (by norm_num)
  have hstep1 : engineStep (1/1000) BuyAndHold.decide ⟨false, ⟨1000, 0, none⟩, []⟩
      ⟨10, 10, true⟩ = ⟨true, ⟨1000, 0, some (Order.buy 100)⟩, [Order.buy 100]⟩ := by
    simp [engineStep, BuyAndHold.decide, BuyAndHold.next, submitOrder, h10]
  have hstep2 : engineStep (1/1000) BuyAndHold.decide
      ⟨true, ⟨1000, 0, some (Order.buy 100)⟩, [Order.buy 100]⟩ ⟨11, 11, true⟩ =
      ⟨true, ⟨1000, 0, none⟩, [Order.buy 100]⟩ := by
    simp [engineStep, fillStep]
    norm_num
  have hrun : runEngine (1/1000) BuyAndHold.decide ⟨false, ⟨1000, 0, none⟩, []⟩
      [⟨10, 10, true⟩, ⟨11, 11, true⟩] = ⟨true, ⟨1000, 0, none⟩, [Order.buy 100]⟩ := by
    rw [runEngine_cons, hstep1, runEngine_cons, hstep2, runEngine_nil]
  exact ⟨by rw [hrun], by rw [h11]; decide, by norm_num, by rw [hrun]⟩

/-- Once the bought flag is set, buy-and-hold never creates another
order: the order log is frozen for the rest of the run. -/
theorem bah_log_frozen (comm : ℚ) (bars : List Bar) :
    ∀ st : EngineState Bool, st.strat = true →
      (runEngine comm BuyAndHold.decide st bars).log = st.log := by
  induction bars with
  | nil => exact fun _ _ => rfl
  | cons bar rest ih =>
    intro st h
    rw [runEngine_cons]
    rcases hp : st.broker.pending with _ | o
    · rw [show engineStep comm BuyAndHold.decide st bar =
          { st with broker := { st.broker with pending := none } } from by
        simp [engineStep, hp, BuyAndHold.decide, BuyAndHold.next, submitOrder, h]]
      exact ih _ h
    · rw [show engineStep comm BuyAndHold.decide st bar =
          { st with broker := fillStep comm bar st.broker } from by
        simp [engineStep, hp]]
      exact ih _ h

/-- C9: over any buy-and-hold run started flat with the bought flag unset,
at most one order is ever created; when one is, it is the single buy of
floor(initial cash / first close) shares created on the first bar, and no
further order of any kind follows for the rest of the run. -/
theorem buy_and_hold_single_order (comm cash0 : ℚ) (bars : List Bar) :
    (runEngine comm BuyAndHold.decide ⟨false, ⟨cash0, 0, none⟩, []⟩ bars).log = [] ∨
    (∃ b rest, bars = b :: rest ∧ 0 < pyInt (cash0 / b.closePrice) ∧
      (runEngine comm BuyAndHold.decide ⟨false, ⟨cash0, 0, none⟩, []⟩ bars).log =
        [Order.buy (pyInt (cash0 / b.closePrice)).toNat]) := by
  cases bars with
  | nil => exact Or.inl rfl
  | cons b rest =>
    rw [runEngine_cons]
    by_cases h : 0 < pyInt (cash0 / b.closePrice)
    · refine Or.inr ⟨b, rest, rfl, h, ?_⟩
      have hstep : engineStep comm BuyAndHold.decide ⟨false, ⟨cash0, 0, none⟩, []⟩ b =
          ⟨true, ⟨cash0, 0, some (Order.buy (pyInt (cash0 / b.closePrice)).toNat)⟩,
            [Order.buy (pyInt (cash0 / b.closePrice)).toNat]⟩ := by
        simp [engineStep, BuyAndHold.decide, BuyAndHold.next, submitOrder, h]
      rw [hstep]
      exact bah_log_frozen comm rest _ rfl
    · refine Or.inl ?_
      have hstep : engineStep comm BuyAndHold.decide ⟨false, ⟨cash0, 0, none⟩, []⟩ b =
          ⟨true, ⟨cash0, 0, none⟩, []⟩ := by
        simp [engineStep, BuyAndHold.decide, BuyAndHold.next, submitOrder, h]
      rw [hstep]
      exact bah_log_frozen comm rest _ rfl

/-- C2 (counterexample): on a bar where the momentum strategy is in
position (1 share), no order is pending, and the RSI-overbought exit
condition holds (RSI 75 above threshold 70), the position is below the
3x layering cap (1 < 15), so the bar is handled by the entry branch and
no closing order is created: the decision is hold. -/
theorem momentum_exit_skipped_below_cap :
    MarketMomentum.rsiExit ⟨40, 70, 7/100, 1/2⟩ ⟨10, 10, 5, 5, 6, 6, 75, 75, 0, 0, 0, 0⟩ = true ∧
    (1 : ℤ) < 3 * pyInt ((100 : ℚ) / 10 * (1/2)) ∧
    MarketMomentum.next ⟨40, 70, 7/100, 1/2⟩ false 1 (some 10) 100
      ⟨10, 10, 5, 5, 6, 6, 75, 75, 0, 0, 0, 0⟩ = (Action.hold, some 10) := by
  have hcap : pyInt ((100 : ℚ) / 10 * (1/2)) = 5 :=
    pyInt_eq _ _ (by norm_num) (by norm_num) (by norm_num)
  have h5 : pyInt (5 : ℚ) = 5 :=
    pyInt_eq _ _ (by norm_num) (by norm_num) (by norm_num)
  refine ⟨by norm_num [MarketMomentum.rsiExit], by rw [hcap]; decide, ?_⟩
  norm_num [MarketMomentum.next, MarketMomentum.ratchet, MarketMomentum.stopHit,
    MarketMomentum.uptrend, MarketMomentum.rsiEntry, MarketMomentum.macdEntry,
    MarketMomentum.pullback, MarketMomentum.rsiExit, MarketMomentum.downtrend,
    MarketMomentum.macdExit, truthy, hcap, h5]

/-- C2 (amended): the forced exit of the momentum strategy fires on a bar
exactly under the reachability condition of the exit branch: in position,
no pending order, and the position size at least 3 times
int(cash / price * risk_per_trade).  Under that cap condition, any of the
three exit signals produces an order closing the entire position. -/
theorem momentum_exit_at_or_above_cap (p : MomentumParams) (position : ℕ)
    (ts : Option ℚ) (cash : ℚ) (d : MomentumBar)
    (hpos : position ≠ 0)
    (hcap : 3 * pyInt (cash / d.close * p.risk_per_trade) ≤ (position : ℤ))
    (hexit : MarketMomentum.rsiExit p d = true ∨ MarketMomentum.downtrend d = true ∨
      MarketMomentum.macdExit d = true) :
    (MarketMomentum.next p false position ts cash d).1 = Action.close := by
  have hnot : ¬ (position = 0 ∨
      (position : ℤ) < 3 * pyInt (cash / d.close * p.risk_per_trade)) := by
    push_neg
    exact ⟨hpos, hcap⟩
  simp only [MarketMomentum.next]
  split_ifs <;> first | rfl | tauto

/-- Witness for momentum_exit_at_or_above_cap: in position with 20 shares
against a cap of 15, RSI 75 above the overbought threshold 70 forces a
close. -/
theorem momentum_exit_at_or_above_cap_witness :
    (MarketMomentum.next ⟨40, 70, 7/100, 1/2⟩ false 20 (some 10) 100
      ⟨10, 10, 5, 5, 6, 6, 75, 75, 0, 0, 0, 0⟩).1 = Action.close := by
  have hcap : pyInt ((100 : ℚ) / 10 * (1/2)) = 5 :=
    pyInt_eq _ _ (by norm_num) (by norm_num) (by norm_num)
  exact momentum_exit_at_or_above_cap ⟨40, 70, 7/100, 1/2⟩ 20 (some 10) 100
    ⟨10, 10, 5, 5, 6, 6, 75, 75, 0, 0, 0, 0⟩ (by norm_num)
    (by rw [hcap]; decide) (Or.inl (by norm_num [MarketMomentum.rsiExit]))

/-- C3: the trailing stop of the momentum strategy.  On a first buy fill
the anchor is set to the entry fill price; the anchor ratchets up to the
current price when the price exceeds anchor times (1 + trail_percent) and
never moves down; when the price falls below the (possibly ratcheted)
anchor times (1 - trail_percent), next creates an order closing the
entire position.  Concretely with trail 0.07: anchor 100 ratchets to 110
at price 110 (110 exceeds 107) without stopping out, and price 101.5
against anchor 110 is below 110 times 0.93 = 102.3, triggering the stop. -/
theorem momentum_trailing_stop (p : MomentumParams) (a fillPrice cash : ℚ)
    (position : ℕ) (d : MomentumBar)
    (ht : 0 ≤ p.trail_percent) (ha : 0 < a) (hpos : position ≠ 0) :
    MarketMomentum.notifyBuyCompleted none fillPrice = some fillPrice ∧
    (a * (1 + p.trail_percent) < d.close →
      MarketMomentum.ratchet p.trail_percent a d.close = d.close) ∧
    a ≤ MarketMomentum.ratchet p.trail_percent a d.close ∧
    (d.close < MarketMomentum.ratchet p.trail_percent a d.close * (1 - p.trail_percent) →
      (MarketMomentum.next p false position (some a) cash d).1 = Action.close) ∧
    MarketMomentum.ratchet (7/100) 100 110 = 110 ∧
    MarketMomentum.stopHit (7/100) 110 110 = false ∧
    MarketMomentum.stopHit (7/100) 110 (203/2) = true ∧
    (110 : ℚ) * (1 - 7/100) = 1023/10 := by
  refine ⟨rfl, ?_, ?_, ?_, ?_, ?_, ?_, by norm_num⟩
  · intro h
    rw [MarketMomentum.ratchet, if_pos h]
  · rw [MarketMomentum.ratchet]
    split_ifs with h
    · nlinarith [mul_nonneg ha.le ht]
    · exact le_refl a
  · intro h
    have htr : truthy (some a) = true := by
      simp [truthy]
      exact ha.ne'
    have hsh : MarketMomentum.stopHit p.trail_percent
        (MarketMomentum.ratchet p.trail_percent a d.close) d.close = true := by
      simp only [MarketMomentum.stopHit, decide_eq_true_eq]
      exact h
    simp only [MarketMomentum.next]
    split_ifs <;> first | rfl | tauto
  · norm_num [MarketMomentum.ratchet]
  · norm_num [MarketMomentum.stopHit]
  · norm_num [MarketMomentum.stopHit]

/-- Witness for momentum_trailing_stop: the concrete ratchet scenario of
the spec, with anchor 110 and price 101.5 forcing a close from next. -/
theorem momentum_trailing_stop_witness :
    (MarketMomentum.next ⟨40, 70, 7/100, 1/2⟩ false 20 (some 110) 100
      ⟨203/2, 203/2, 0, 0, 0, 0, 0, 0, 0, 0, 0, 0⟩).1 = Action.close := by
  have h := momentum_trailing_stop ⟨40, 70, 7/100, 1/2⟩ 110 100 100 20
    ⟨203/2, 203/2, 0, 0, 0, 0, 0, 0, 0, 0, 0, 0⟩ (by norm_num) (by norm_num) (by norm_num)
  apply h.2.2.2.1
  have hr : MarketMomentum.ratchet (7/100) 110 (203/2) = 110 := by
    norm_num [MarketMomentum.ratchet]
  rw [hr]
  norm_num

/-- C4: max drawdown.  The expression in calculate_performance_metrics
takes the maximum of the dollar drawdown series before dividing by the
running-peak series, producing the elementwise series [30, 25, 25, 25] on
the portfolio values [100, 120, 90, 110] instead of the scalar 25 that
the specified formula (and the per-bar drawdown of plot_equity_curve)
yields. -/
theorem max_drawdown_code_bug :
    Metrics.maxDrawdownCode [100, 120, 90, 110] = [30, 25, 25, 25] ∧
    Metrics.maxDrawdownSpecified [100, 120, 90, 110] = 25 ∧
    Metrics.drawdownSeries [100, 120, 90, 110] = [0, 0, 25, 25/3] ∧
    Metrics.maxDrawdownCode [100, 120, 90, 110] ≠ [25, 25, 25, 25] := by
  have hc : Metrics.cummax [100, 120, 90, 110] = ([100, 120, 120, 120] : List ℚ) := by
    norm_num [Metrics.cummax, Metrics.cummaxFrom, max_def]
  have hdd : Metrics.drawdownSeries [100, 120, 90, 110] = [0, 0, 25, 25/3] := by
    norm_num [Metrics.drawdownSeries, hc, List.zipWith]
  have hcode : Metrics.maxDrawdownCode [100, 120, 90, 110] = [30, 25, 25, 25] := by
    norm_num [Metrics.maxDrawdownCode, hc, Metrics.listMax, List.zipWith, List.foldl,
      List.map, max_def]
  refine ⟨hcode, ?_, hdd, ?_⟩
  · norm_num [Metrics.maxDrawdownSpecified, hdd, Metrics.listMax, List.foldl, max_def]
  · rw [hcode]
    norm_num

/-- C5: rebound decision rules.  When flat with a pending-free bar and
sufficient history, the all-cash buy is created exactly when the drop
from the close lookback_period bars earlier reaches drop_threshold; when
in position with a truthy recorded purchase price, the full close is
created exactly when the rise from the purchase price reaches
rise_threshold.  Concretely, with lookback 5 and drop threshold 0.10 on
the closes [100, 100, 100, 100, 100, 89], bar 5 shows a drop of 0.11 and
creates the all-cash buy. -/
theorem rebound_signals (p : ReboundParams) (dataLen : ℕ)
    (close pastClose cash pp : ℚ) (position : ℕ)
    (hlen : p.lookback_period < dataLen) (hpast : 0 < pastClose)
    (hpos : position ≠ 0) (hpp : pp ≠ 0) :
    (Rebound.next p false 0 dataLen close pastClose none cash =
        Action.buy (pyInt (cash / close)) ↔
      p.drop_threshold ≤ (pastClose - close) / pastClose) ∧
    (Rebound.next p false position dataLen close pastClose (some pp) cash =
        Action.close ↔
      p.rise_threshold ≤ (close - pp) / pp) ∧
    Rebound.nextAt ⟨1/10, 1/5, 5⟩ [100, 100, 100, 100, 100, 89] 5 false 0 none 10000 =
      Action.buy 112 ∧
    (1/10 : ℚ) ≤ ((100 : ℚ) - 89) / 100 := by
  refine ⟨⟨?_, ?_⟩, ⟨?_, ?_⟩, ?_, by norm_num⟩
  · intro h
    by_contra hdrop
    simp [Rebound.next, hlen, hdrop] at h
  · intro h
    simp [Rebound.next, hlen, h]
  · intro h
    by_contra hrise
    simp [Rebound.next, hpos, hpp, hrise] at h
  · intro h
    simp [Rebound.next, hpos, hpp, h]
  · have h112 : pyInt ((10000 : ℚ) / 89) = 112 :=
      pyInt_eq _ _ (by norm_num) (by norm_num) (by norm_num)
    simp [Rebound.nextAt, Rebound.next, List.getD, h112]
    norm_num

/-- Witness for rebound_signals: the concrete drop scenario creates the
all-cash buy of 112 shares. -/
theorem rebound_signals_witness :
    Rebound.next ⟨1/10, 1/5, 5⟩ false 0 6 89 100 none 10000 = Action.buy 112 := by
  have h112 : pyInt ((10000 : ℚ) / 89) = 112 :=
    pyInt_eq _ _ (by norm_num) (by norm_num) (by norm_num)
  have h := rebound_signals ⟨1/10, 1/5, 5⟩ 6 89 100 10000 89 1
    (by norm_num) (by norm_num) (by norm_num) (by norm_num)
  rw [h.1.mpr (by norm_num), h112]

/-- C10: the rebound sell signal is truthiness-guarded on the recorded
purchase price: in position with purchase price None or 0.0, the bar is a
hold and no sell order is created. -/
theorem rebound_purchase_guard (p : ReboundParams) (position dataLen : ℕ)
    (close pastClose cash : ℚ) (purchase : Option ℚ)
    (hpos : position ≠ 0) (hp : purchase = none ∨ purchase = some 0) :
    Rebound.next p false position dataLen close pastClose purchase cash = Action.hold := by
  rcases hp with h | h <;> subst h <;> simp [Rebound.next, hpos]

/-- Witness for rebound_purchase_guard: holding 3 shares with no recorded
purchase price is a hold. -/
theorem rebound_purchase_guard_witness :
    Rebound.next ⟨1/10, 1/5, 5⟩ false 3 6 150 100 none 500 = Action.hold :=
  rebound_purchase_guard ⟨1/10, 1/5, 5⟩ 3 6 150 100 500 none
    (by norm_num) (Or.inl rfl)

/-- C7 (counterexample): the top-level SMA implementation does not size
its orders: on a flat bar with crossover value 1 it creates an unsized
buy, which is not the all-cash buy of floor(cash / close) shares for cash
10000 and close 100, and on an in-position bar with crossover value -1 it
creates an unsized sell, which is not a close of the entire position. -/
theorem sma_top_implementation_diverges :
    SmaCrossTop.next false 0 1 = Action.buyDefault ∧
    Action.buyDefault ≠ Action.buy (pyInt ((10000 : ℚ) / 100)) ∧
    SmaCrossTop.next false 5 (-1) = Action.sellDefault ∧
    Action.sellDefault ≠ Action.close := by
  refine ⟨?_, fun h => Action.noConfusion h, ?_, fun h => Action.noConfusion h⟩
  · norm_num [SmaCrossTop.next]
  · norm_num [SmaCrossTop.next]

/-- C7 (amended): both SMA implementations hold while an order is
pending; on a positive crossover when flat, the strategies implementation
creates the all-cash buy of floor(cash / close) shares while the
top-level one creates an unsized buy; on a negative crossover when in
position, the strategies implementation closes the entire position while
the top-level one creates an unsized sell. -/
theorem sma_next_behavior (position : ℕ) (crossover cash close : ℚ) :
    SmaCross.next true position crossover cash close = Action.hold ∧
    SmaCrossTop.next true position crossover = Action.hold ∧
    (0 < crossover →
      SmaCross.next false 0 crossover cash close = Action.buy (pyInt (cash / close))) ∧
    (position ≠ 0 → crossover < 0 →
      SmaCross.next false position crossover cash close = Action.close) ∧
    (0 < crossover → SmaCrossTop.next false 0 crossover = Action.buyDefault) ∧
    (position ≠ 0 → crossover < 0 →
      SmaCrossTop.next false position crossover = Action.sellDefault) := by
  refine ⟨rfl, rfl, ?_, ?_, ?_, ?_⟩
  · intro h
    simp [SmaCross.next, h]
  · intro h1 h2
    simp [SmaCross.next, h1, h2]
  · intro h
    simp [SmaCrossTop.next, h]
  · intro h1 h2
    simp [SmaCrossTop.next, h1, h2]

/-- Witness for sma_next_behavior: concrete buy and close decisions for
both implementations. -/
theorem sma_next_behavior_witness :
    SmaCross.next false 0 1 10000 100 = Action.buy 100 ∧
    SmaCross.next false 5 (-1) 10000 100 = Action.close ∧
    SmaCrossTop.next false 0 1 = Action.buyDefault ∧
    SmaCrossTop.next false 5 (-1) = Action.sellDefault := by
  have h100 : pyInt ((10000 : ℚ) / 100) = 100 :=
    pyInt_eq _ _ (by norm_num) (by norm_num) (by norm_num)
  have h := sma_next_behavior 5 1 10000 100
  have hm := sma_next_behavior 5 (-1) 10000 100
  refine ⟨?_, ?_, ?_, ?_⟩
  · rw [h.2.2.1 (by norm_num), h100]
  · exact hm.2.2.2.1 (by norm_num) (by norm_num)
  · exact h.2.2.2.2.1 (by norm_num)
  · exact hm.2.2.2.2.2 (by norm_num) (by norm_num)

/-- C8: a computed buy size of zero is a silent no-op in every variant.
The momentum strategy guards the size itself and holds; the rebound, SMA
crossover and buy-and-hold variants emit the sized buy action, which the
order creation layer turns into no order. -/
theorem zero_size_buy_noop (p : MomentumParams) (rp : ReboundParams)
    (ts purchase : Option ℚ) (cash close pastClose crossover : ℚ)
    (dataLen : ℕ) (d : MomentumBar)
    (hm : pyInt (cash * p.risk_per_trade / d.close) ≤ 0)
    (hz : pyInt (cash / close) ≤ 0) :
    (MarketMomentum.next p false 0 ts cash d).1 = Action.hold ∧
    submitOrder 0 (Rebound.next rp false 0 dataLen close pastClose purchase cash) = none ∧
    submitOrder 0 (SmaCross.next false 0 crossover cash close) = none ∧
    submitOrder 0 ((BuyAndHold.next false 0 cash close).1) = none := by
  have hms : ¬ (0 : ℤ) < pyInt (cash * p.risk_per_trade / d.close) := not_lt.mpr hm
  have hns : ¬ (0 : ℤ) < pyInt (cash / close) := not_lt.mpr hz
  refine ⟨?_, ?_, ?_, ?_⟩
  · simp only [MarketMomentum.next]
    split_ifs <;> first | rfl | tauto
  · simp only [Rebound.next]
    split_ifs <;> simp_all [submitOrder]
  · simp only [SmaCross.next]
    split_ifs <;> simp_all [submitOrder]
  · simp only [BuyAndHold.next]
    split_ifs <;> simp_all [submitOrder]

/-- Witness for zero_size_buy_noop: cash 5 against price 10 affords no
whole share; no variant creates an order and none errors. -/
theorem zero_size_buy_noop_witness :
    (MarketMomentum.next ⟨40, 70, 7/100, 1/2⟩ false 0 none 5
      ⟨10, 10, 7, 5, 6, 6, 50, 50, 0, 0, 0, 0⟩).1 = Action.hold ∧
    submitOrder 0 (Rebound.next ⟨1/10, 1/5, 5⟩ false 0 6 10 100 none 5) = none ∧
    submitOrder 0 (SmaCross.next false 0 1 5 10) = none ∧
    submitOrder 0 ((BuyAndHold.next false 0 5 10).1) = none := by
  have hm : pyInt ((5 : ℚ) * (1/2) / 10) = 0 :=
    pyInt_eq _ _ (by norm_num) (by norm_num) (by norm_num)
  have hz : pyInt ((5 : ℚ) / 10) = 0 :=
    pyInt_eq _ _ (by norm_num) (by norm_num) (by norm_num)
  exact zero_size_buy_noop ⟨40, 70, 7/100, 1/2⟩ ⟨1/10, 1/5, 5⟩ none none 5 10 100 1 6
    ⟨10, 10, 7, 5, 6, 6, 50, 50, 0, 0, 0, 0⟩ hm.le hz.le

/-- Sample variance is never negative: the numerator is a sum of squares
and the denominator is nonnegative once the list is nonempty (and on an
empty list the quotient is zero). -/
theorem sampleVar_nonneg (xs : List ℚ) : 0 ≤ Metrics.sampleVar xs := by
  cases xs with
  | nil => simp [Metrics.sampleVar]
  | cons a l =>
    apply div_nonneg
    · apply List.sum_nonneg
      intro x hx
      obtain ⟨y, _, rfl⟩ := List.mem_map.mp hx
      positivity
    · simp only [List.length_cons]
      push_cast
      linarith [Nat.cast_nonneg (α := ℚ) l.length]

/-- C6 (counterexample): on the constant series [100, 100, 100] the
volatility is zero, and the code reports the number 0 while the claim
says not-a-number; on [100, 200, 200] the code value, built from the
annualized geometric return, differs from the claimed
mean-over-std-times-sqrt-252 value. -/
theorem sharpe_zero_vol_and_formula_mismatch :
    Metrics.sharpeRatioCode [100, 100, 100] = 0 ∧
    Metrics.sharpeRatioClaimed [100, 100, 100] = none ∧
    some (Metrics.sharpeRatioCode [100, 200, 200]) ≠
      Metrics.sharpeRatioClaimed [100, 200, 200] := by
  have h1 : Metrics.dailyReturns [100, 100, 100] = [0, 0] := by
    norm_num [Metrics.dailyReturns, List.zipWith]
  have h2 : Metrics.sampleVar [0, 0] = 0 := by
    norm_num [Metrics.sampleVar, Metrics.mean, List.map, List.sum_cons]
  have h3 : Metrics.dailyReturns [100, 200, 200] = [1, 0] := by
    norm_num [Metrics.dailyReturns, List.zipWith]
  have h5 : Metrics.mean [1, 0] = 1/2 := by
    norm_num [Metrics.mean, List.sum_cons]
  have h4 : Metrics.sampleVar [1, 0] = 1/2 := by
    norm_num [Metrics.sampleVar, h5, List.map, List.sum_cons]
  have h6 : Metrics.totalReturnPct [100, 200, 200] = 100 := by
    norm_num [Metrics.totalReturnPct, List.getLastD, List.headD]
  refine ⟨?_, ?_, ?_⟩
  · have ha : Metrics.stdOpt (Metrics.dailyReturns [100, 100, 100]) = some 0 := by
      rw [h1]
      simp [Metrics.stdOpt, h2]
    simp [Metrics.sharpeRatioCode, ha]
  · rw [Metrics.sharpeRatioClaimed, h1]
    simp [h2]
  · have hb : Metrics.stdOpt (Metrics.dailyReturns [100, 200, 200]) =
        some (Real.sqrt (1/2)) := by
      rw [h3]
      rw [Metrics.stdOpt, if_pos (by norm_num), h4]
      norm_num
    have hq : Real.sqrt (1/2) * Real.sqrt 252 = Real.sqrt 126 := by
      rw [← Real.sqrt_mul (by norm_num : (0:ℝ) ≤ 1/2)]
      norm_num
    have hs : (0:ℝ) < Real.sqrt 126 := Real.sqrt_pos.mpr (by norm_num)
    have hann : Metrics.annualReturnPct [100, 200, 200] = ((2:ℝ) ^ (84:ℕ) - 1) * 100 := by
      rw [Metrics.annualReturnPct, h6]
      have hexp : ((252:ℝ) / (([100, 200, 200] : List ℚ).length : ℝ)) = ((84:ℕ) : ℝ) := by
        norm_num
      rw [hexp, Real.rpow_natCast]
      norm_num
    have hcode : Metrics.sharpeRatioCode [100, 200, 200] =
        ((2:ℝ) ^ (84:ℕ) - 1) / Real.sqrt 126 := by
      rw [Metrics.sharpeRatioCode]
      rw [hb]
      have hvol : (0:ℝ) < Real.sqrt (1/2) * Real.sqrt 252 * 100 := by
        rw [hq]
        positivity
      simp only [if_pos hvol]
      rw [hann, hq, mul_div_mul_right _ _ (by norm_num : (100:ℝ) ≠ 0)]
    have hclaim : Metrics.sharpeRatioClaimed [100, 200, 200] = some (Real.sqrt 126) := by
      rw [Metrics.sharpeRatioClaimed, h3]
      rw [if_pos (by constructor <;> norm_num [h4])]
      rw [h4, h5]
      push_cast
      rw [Real.div_sqrt, hq]
    rw [hcode, hclaim]
    intro h
    have heq : ((2:ℝ) ^ (84:ℕ) - 1) / Real.sqrt 126 = Real.sqrt 126 :=
      Option.some.inj h
    have h126 : ((2:ℝ) ^ (84:ℕ) - 1) = Real.sqrt 126 * Real.sqrt 126 :=
      (div_eq_iff hs.ne').mp heq
    rw [Real.mul_self_sqrt (by norm_num)] at h126
    norm_num at h126

/-- C6 (amended): the Sharpe ratio the code reports equals the annualized
geometric return divided by the annualized volatility, and is 0 (not
not-a-number) whenever the volatility is zero or fewer than two
daily-return observations exist. -/
theorem sharpe_matches_amended (vs : List ℚ) :
    Metrics.sharpeRatioCode vs = Metrics.sharpeRatioAmended vs := by
  by_cases hlen : 2 ≤ (Metrics.dailyReturns vs).length
  · have hvint : Metrics.stdOpt (Metrics.dailyReturns vs) =
        some (Real.sqrt (Metrics.sampleVar (Metrics.dailyReturns vs))) := by
      rw [Metrics.stdOpt, if_pos hlen]
    rcases (sampleVar_nonneg (Metrics.dailyReturns vs)).lt_or_eq with hv | hv
    · have hsq : (0:ℝ) < Real.sqrt (Metrics.sampleVar (Metrics.dailyReturns vs)) :=
        Real.sqrt_pos.mpr (by exact_mod_cast hv)
      have hvol : (0:ℝ) <
          Real.sqrt (Metrics.sampleVar (Metrics.dailyReturns vs)) * Real.sqrt 252 * 100 :=
        mul_pos (mul_pos hsq (Real.sqrt_pos.mpr (by norm_num))) (by norm_num)
      rw [Metrics.sharpeRatioCode, hvint]
      simp only [if_pos hvol]
      rw [Metrics.sharpeRatioAmended, if_pos ⟨hlen, hv⟩]
    · have hz : Real.sqrt (Metrics.sampleVar (Metrics.dailyReturns vs)) = 0 := by
        rw [← hv]
        push_cast
        exact Real.sqrt_zero
      rw [Metrics.sharpeRatioCode, hvint, Metrics.sharpeRatioAmended]
      rw [if_neg (by rintro ⟨-, hlt⟩; rw [← hv] at hlt; exact lt_irrefl 0 hlt)]
      rw [hz]
      norm_num
  · rw [Metrics.sharpeRatioCode, Metrics.stdOpt, if_neg hlen,
      Metrics.sharpeRatioAmended, if_neg (by rintro ⟨hl, -⟩; exact hlen hl)]

end IndexReturn
